import Mathlib

/-!
# Verification of the moltbook-frontend session/token/authorization core

Shallow embedding of the session store (`src/lib/auth/store`), the token
service (`src/lib/auth/jwt`), the role/permission tables and route-permission
resolver (`src/lib/auth/roles`), the login rate limiter
(`src/app/api/auth/login/route.ts`), the login/refresh token issuance paths,
and the authorization middleware.

JavaScript `Map` / `Set` / `Headers` objects are modelled as association
lists keyed by `String`; since a `Map` holds at most one entry per key, the
"replace every entry with this key" list operations below coincide with the
single-entry update the runtime performs.  `Date.now()` timestamps are `Nat`
milliseconds passed explicitly.
-/

namespace Moltbook

/-! ## Association-list primitives (model of JS `Map`) -/

/-- `Map.get`: first entry with the key. -/
def lookupA {α : Type} (l : List (String × α)) (k : String) : Option α :=
  (l.find? (fun p => p.1 = k)).map (·.2)

/-- `Map.set`: overwrite the entry if the key is present, else append
(JS maps preserve insertion order, and hold at most one entry per key). -/
def setA {α : Type} : List (String × α) → String → α → List (String × α)
  | [], k, v => [(k, v)]
  | p :: t, k, v => if p.1 = k then (k, v) :: t else p :: setA t k v

/-- `Map.delete`: drop the entry with the key. -/
def eraseA {α : Type} (l : List (String × α)) (k : String) :
    List (String × α) :=
  l.filter (fun p => ¬ p.1 = k)

/-- Update the value at a key in place (model of mutating the object held in
the map, e.g. `session.used = true`). -/
def updateA {α : Type} (l : List (String × α)) (k : String) (f : α → α) :
    List (String × α) :=
  l.map (fun p => if p.1 = k then (p.1, f p.2) else p)

/-! ## String primitives

Kernel-reducible counterparts of the string operations the source uses
(`startsWith`, `slice`/`drop`, `split(',')`, `trim`), defined over the
character list underlying the string. -/

def strStartsWith (s pre : String) : Bool :=
  decide (s.data.take pre.data.length = pre.data)

def strDrop (s : String) (n : Nat) : String :=
  String.mk (s.data.drop n)

/-- `split(',')` on the character level; the empty string yields `[[]]`,
as in JS. -/
def splitOnComma : List Char → List (List Char)
  | [] => [[]]
  | c :: rest =>
    let r := splitOnComma rest
    if c = ',' then [] :: r
    else
      match r with
      | h :: t => (c :: h) :: t
      | [] => [[c]]

def splitCommaStr (s : String) : List String :=
  (splitOnComma s.data).map String.mk

def isSpaceChar (c : Char) : Bool :=
  c = ' ' || c = '\t' || c = '\n' || c = '\r'

/-- `trim`: strip leading and trailing whitespace. -/
def trimStr (s : String) : String :=
  String.mk (((s.data.dropWhile isSpaceChar).reverse.dropWhile
    isSpaceChar).reverse)

/-! ## Roles and the route-permission resolver (`src/lib/auth/roles`) -/

inductive Role
  | admin
  | agent
deriving DecidableEq, Repr

def Role.toStr : Role → String
  | .admin => "admin"
  | .agent => "agent"

def ROLE_PERMISSIONS : Role → List String
  | .admin => ["read", "write", "delete", "admin"]
  | .agent => ["read", "write"]

/-- The three path patterns of `ROUTE_PERMISSIONS`, each a `^`-anchored
regular expression in the source. -/
inductive RoutePat
  | apiAny      -- `^\/api\/`
  | apiAgents   -- `^\/api\/agents`
  | apiVote     -- `^\/api\/posts\/[^/]+\/(upvote|downvote)`
deriving DecidableEq, Repr

/-- `RegExp.test` for `^\/api\/posts\/[^/]+\/(upvote|downvote)`: the anchored
match consumes `/api/posts/`, then a non-empty run of non-slash characters,
then `/upvote` or `/downvote` (no end anchor). -/
def voteTest (pathname : String) : Bool :=
  if strStartsWith pathname "/api/posts/" then
    let rest := (strDrop pathname 11).data
    let seg := rest.takeWhile (fun c => c ≠ '/')
    let after := rest.dropWhile (fun c => c ≠ '/')
    decide (seg ≠ []) &&
      (decide (after.take 7 = "/upvote".data) ||
       decide (after.take 9 = "/downvote".data))
  else false

def RoutePat.test : RoutePat → String → Bool
  | .apiAny, p => strStartsWith p "/api/"
  | .apiAgents, p => strStartsWith p "/api/agents"
  | .apiVote, p => voteTest p

structure RouteRule where
  method : String
  pattern : RoutePat
  requires : String
deriving DecidableEq, Repr

/-- The ordered rule list; first match wins. -/
def ROUTE_PERMISSIONS_LIST : List RouteRule :=
  [ { method := "DELETE", pattern := .apiAny, requires := "delete" },
    { method := "PATCH", pattern := .apiAgents, requires := "write" },
    { method := "POST", pattern := .apiVote, requires := "write" } ]

def ruleMatches (r : RouteRule) (method pathname : String) : Bool :=
  decide (r.method = method) && r.pattern.test pathname

/-- First matching rule of the ordered list, if any. -/
def findRule (method pathname : String) : Option RouteRule :=
  ROUTE_PERMISSIONS_LIST.find? (fun r => ruleMatches r method pathname)

def getRequiredPermission (method pathname : String) : String :=
  match findRule method pathname with
  | some r => r.requires
  | none => if method = "GET" ∨ method = "HEAD" then "read" else "write"

/-- "Safe" HTTP methods in the standard (RFC 7231 §4.2.1) sense. -/
def isSafeMethodRFC (m : String) : Bool :=
  m = "GET" || m = "HEAD" || m = "OPTIONS" || m = "TRACE"

/-- No rule of the ordered list matches this method/pathname pair. -/
def noRuleMatches (method pathname : String) : Bool :=
  ROUTE_PERMISSIONS_LIST.all (fun r => ¬ ruleMatches r method pathname)

/-! ## Session store (`src/lib/auth/store`)

`sessions : Map<string, Session>` and `userSessions : Map<string, Set<string>>`
become association lists; the random UUID drawn by `createSession` is passed
in explicitly, as is `Date.now()`. -/

structure Session where
  moltbookApiKey : String
  userId : String
  expiresAt : Nat
  used : Bool
deriving DecidableEq, Repr

structure Store where
  sessions : List (String × Session)
  userSessions : List (String × List String)
deriving DecidableEq, Repr

def emptyStore : Store := ⟨[], []⟩

def SESSION_TTL_MS : Nat := 7 * 24 * 60 * 60 * 1000

/-- `Set.add`: append if not already present (insertion order). -/
def addId (ids : List String) (id : String) : List String :=
  if ids.contains id then ids else ids ++ [id]

/-- `userSessions.get(userId)?.delete(id)`. -/
def removeUserSession (us : List (String × List String)) (userId id : String) :
    List (String × List String) :=
  us.map (fun p => if p.1 = userId then (p.1, p.2.filter (fun i => i ≠ id)) else p)

/-- `createSession`, with the generated UUID `id` and the clock `now` explicit. -/
def createSession (st : Store) (userId moltbookApiKey id : String) (now : Nat) :
    Store :=
  { sessions := setA st.sessions id
      { moltbookApiKey := moltbookApiKey, userId := userId,
        expiresAt := now + SESSION_TTL_MS, used := false },
    userSessions :=
      let us := if (lookupA st.userSessions userId).isSome then
          st.userSessions
        else setA st.userSessions userId []
      updateA us userId (fun ids => addId ids id) }

/-- Flip the `used` flag of the entry held under `id`
(`session.used = true` through the reference returned by `Map.get`). -/
def markUsed (l : List (String × Session)) (id : String) :
    List (String × Session) :=
  updateA l id (fun s => { s with used := true })

/-- `consumeSession`, with the rotation UUID `newId` and the clock explicit.
Returns the `{ moltbookApiKey, userId, newRefreshToken }` triple (or `none`)
together with the store it leaves behind. -/
def consumeSession (st : Store) (refreshToken newId : String) (now : Nat) :
    Option (String × String × String) × Store :=
  match lookupA st.sessions refreshToken with
  | none => (none, st)
  | some session =>
    if session.expiresAt < now then
      (none, { st with sessions := eraseA st.sessions refreshToken })
    else if session.used then
      (none, st)
    else
      let st1 : Store := { st with sessions := markUsed st.sessions refreshToken }
      let st2 := createSession st1 session.userId session.moltbookApiKey newId now
      (some (session.moltbookApiKey, session.userId, newId), st2)

/-- `pruneExpired` (the hourly GC sweep). -/
def pruneExpired (st : Store) (now : Nat) : Store :=
  let dead := fun (s : Session) => s.expiresAt < now || s.used
  { sessions := st.sessions.filter (fun p => ¬ dead p.2),
    userSessions :=
      (st.sessions.filter (fun p => dead p.2)).foldl
        (fun us p => removeUserSession us p.2.userId p.1) st.userSessions }

/-- `getMoltbookKey`: reverse lookup of an unused, unexpired session. -/
def getMoltbookKey (st : Store) (userId : String) (now : Nat) : Option String :=
  match lookupA st.userSessions userId with
  | none => none
  | some ids =>
    ids.findSome? (fun id =>
      match lookupA st.sessions id with
      | some s => if ¬ s.used ∧ s.expiresAt > now then some s.moltbookApiKey else none
      | none => none)

/-- `invalidateUser`. -/
def invalidateUser (st : Store) (userId : String) : Store :=
  match lookupA st.userSessions userId with
  | none => st
  | some ids =>
    { sessions := st.sessions.filter (fun p => ¬ ids.contains p.1),
      userSessions := eraseA st.userSessions userId }

/-! Store operations, for sequential interleavings.  The identifiers minted
inside `create` and `consume` are the explicit `id` / `newId` arguments. -/

inductive Op
  | create (userId moltbookApiKey id : String) (now : Nat)
  | consume (refreshToken newId : String) (now : Nat)
  | prune (now : Nat)
  | invalidate (userId : String)
deriving DecidableEq, Repr

def applyOp (st : Store) : Op → Store
  | .create userId key id now => createSession st userId key id now
  | .consume refreshToken newId now => (consumeSession st refreshToken newId now).2
  | .prune now => pruneExpired st now
  | .invalidate userId => invalidateUser st userId

def applyOps (st : Store) (ops : List Op) : Store :=
  ops.foldl applyOp st

/-- The operation never stores a fresh entry under `target`: `create` does not
draw `target` as its UUID, nor does the rotation inside `consume`. -/
def opAvoids (target : String) : Op → Prop
  | .create _ _ id _ => id ≠ target
  | .consume _ newId _ => newId ≠ target
  | .prune _ => True
  | .invalidate _ => True

instance (target : String) (op : Op) : Decidable (opAvoids target op) := by
  cases op <;> simp only [opAvoids] <;> infer_instance

/-- Every session entry held under `id` is marked used: such an identifier
can never again be consumed. -/
def Dead (l : List (String × Session)) (id : String) : Prop :=
  ∀ p ∈ l, p.1 = id → p.2.used = true

/-! ## Token service (`src/lib/auth/jwt`)

The RS256 signature computed by the `jose` library is modelled symbolically:
a token records the identifier of the key pair whose private key signed it,
and signature verification against a public key succeeds exactly when the
token was signed with the matching private key of the same pair.  Times are
`Nat` seconds, matching the JWT `iat`/`exp` claims. -/

structure AccessTokenPayload where
  sub : String
  role : String
  permissions : List String
deriving DecidableEq, Repr

/-- A signed JWT, field for field what `SignJWT` emits. -/
structure SignedJwt where
  alg : String
  sub : String
  role : String
  permissions : List String
  iat : Nat
  exp : Nat
  iss : String
  aud : String
  signedWith : Nat
deriving DecidableEq, Repr

/-- The process environment the token service reads:
`JWT_ISSUER`/`JWT_AUDIENCE` (optional, with in-code defaults) and the key
pair loaded by the key provider. -/
structure JwtEnv where
  jwtIssuer : Option String
  jwtAudience : Option String
  keyPairId : Nat
deriving DecidableEq, Repr

/-- 15 minutes, in seconds (`setExpirationTime('15m')`). -/
def ACCESS_TOKEN_TTL_S : Nat := 15 * 60

def signAccessToken (env : JwtEnv) (now : Nat)
    (payload : AccessTokenPayload) : SignedJwt :=
  { alg := "RS256", sub := payload.sub, role := payload.role,
    permissions := payload.permissions, iat := now,
    exp := now + ACCESS_TOKEN_TTL_S,
    iss := env.jwtIssuer.getD "moltbook-frontend",
    aud := env.jwtAudience.getD "moltbook-api",
    signedWith := env.keyPairId }

/-- `jwtVerify` with `algorithms: ['RS256']` and the configured
issuer/audience: signature, algorithm, issuer, audience, and expiry
(`exp` must lie strictly in the future) must all check out. -/
def verifyAccessToken (env : JwtEnv) (now : Nat) (t : SignedJwt) :
    Option AccessTokenPayload :=
  if t.signedWith = env.keyPairId ∧ t.alg = "RS256" ∧
      t.iss = env.jwtIssuer.getD "moltbook-frontend" ∧
      t.aud = env.jwtAudience.getD "moltbook-api" ∧
      now < t.exp then
    some { sub := t.sub, role := t.role, permissions := t.permissions }
  else none

/-! ## Login and refresh issuance paths
(`src/app/api/auth/login/route.ts`, `src/app/api/auth/refresh/route.ts`) -/

/-- `(process.env.ADMIN_USER_IDS ?? '').split(',').map(trim).filter(Boolean)`. -/
def parseAdminIds (adminEnv : Option String) : List String :=
  ((splitCommaStr (adminEnv.getD "")).map trimStr).filter (fun s => s ≠ "")

/-- The role the login route assigns. -/
def loginRole (adminEnv : Option String) (userId : String) : Role :=
  if (parseAdminIds adminEnv).contains userId then .admin else .agent

/-- The access token the login route mints for an authenticated `userId`. -/
def loginMintedToken (env : JwtEnv) (adminEnv : Option String) (now : Nat)
    (userId : String) : SignedJwt :=
  signAccessToken env now
    { sub := userId, role := (loginRole adminEnv userId).toStr,
      permissions := ROLE_PERMISSIONS (loginRole adminEnv userId) }

/-- The access token the refresh route mints after a successful session
rotation: the role and permissions are hard-coded. -/
def refreshMintedToken (env : JwtEnv) (now : Nat) (userId : String) :
    SignedJwt :=
  signAccessToken env now
    { sub := userId, role := "agent", permissions := ["read", "write"] }

/-! ## Login rate limiter (`src/app/api/auth/login/route.ts`) -/

structure RateEntry where
  count : Nat
  windowStart : Nat
deriving DecidableEq, Repr

def RATE_WINDOW_MS : Nat := 15 * 60 * 1000
def RATE_LIMIT : Nat := 10

/-- `checkRateLimit`: `true` means the attempt is admitted.  Returns the
updated attempt table.  `now - e.windowStart` is truncated subtraction,
which agrees with the source comparison (a negative JS difference is never
`> RATE_WINDOW_MS`, and neither is `0`). -/
def checkRateLimit (tbl : List (String × RateEntry)) (ip : String) (now : Nat) :
    Bool × List (String × RateEntry) :=
  match lookupA tbl ip with
  | none => (true, setA tbl ip { count := 1, windowStart := now })
  | some e =>
    if now - e.windowStart > RATE_WINDOW_MS then
      (true, setA tbl ip { count := 1, windowStart := now })
    else if e.count ≥ RATE_LIMIT then
      (false, tbl)
    else
      (true, setA tbl ip { count := e.count + 1, windowStart := e.windowStart })

/-- A sequence of login attempts from one source at the given times. -/
def runAttempts (tbl : List (String × RateEntry)) (ip : String) :
    List Nat → List Bool × List (String × RateEntry)
  | [] => ([], tbl)
  | t :: ts =>
    let r := checkRateLimit tbl ip t
    let rest := runAttempts r.2 ip ts
    (r.1 :: rest.1, rest.2)

/-! ## Authorization gate (`middleware.ts`)

A request is its method, pathname and header list (header names lowercase,
as the fetch-API `Headers` object canonicalises them).  Token verification
is abstracted as a function `verify` so the gate's behaviour can be stated
for every verifier outcome; `middleware.ts` instantiates it with
`verifyAccessToken` on the wire-encoded token. -/

structure MwRequest where
  method : String
  pathname : String
  headers : List (String × String)
deriving DecidableEq, Repr

def PUBLIC_API_ROUTES : List (String × String) :=
  [("GET", "/api/health"), ("POST", "/api/auth/login"),
   ("POST", "/api/auth/refresh")]

def isPublicApiRoute (req : MwRequest) : Bool :=
  PUBLIC_API_ROUTES.any
    (fun r => decide (r.2 = req.pathname) && decide (r.1 = req.method))

/-- `authHeader?.startsWith('Bearer ') ? authHeader.slice(7) : null`. -/
def bearerToken (req : MwRequest) : Option String :=
  match lookupA req.headers "authorization" with
  | none => none
  | some a => if strStartsWith a "Bearer " then some (strDrop a 7) else none

inductive MwOutcome
  | next
  | reject (status : Nat)
  | forward (headers : List (String × String))
deriving DecidableEq, Repr

/-- The middleware, parameterised by the token verifier.  `.next` is a
pass-through (non-API or public route), `.reject` a terminal 401/403, and
`.forward hs` forwards the request downstream with headers `hs`. -/
def middleware (verify : String → Option AccessTokenPayload)
    (req : MwRequest) : MwOutcome :=
  if ¬ strStartsWith req.pathname "/api/" then .next
  else if isPublicApiRoute req then .next
  else match bearerToken req with
    | none => .reject 401
    | some tok =>
      match verify tok with
      | none => .reject 401
      | some payload =>
        let required := getRequiredPermission req.method req.pathname
        if payload.permissions.contains required then
          .forward (setA (setA req.headers "x-user-id" payload.sub)
            "x-user-role" payload.role)
        else .reject 403

/-! ## Concrete stores, requests, and operation sequences used as witnesses -/

def wStore : Store := createSession emptyStore "u" "key" "sid" 0

def wOps : List Op :=
  [.create "u2" "k2" "sid3" 2, .prune 3, .consume "sid2" "sid4" 4,
   .invalidate "u2"]

def wVerify : String → Option AccessTokenPayload := fun t =>
  if t = "tok" then some ⟨"u1", "agent", ["read", "write"]⟩ else none

def wReq1 : MwRequest :=
  ⟨"GET", "/api/posts",
   [("authorization", "Bearer tok"), ("x-user-id", "evil"),
    ("x-user-role", "admin")]⟩

def wReq2 : MwRequest :=
  ⟨"GET", "/api/posts",
   [("authorization", "Bearer tok"), ("x-user-id", "other")]⟩

/-- The headers the gate forwards for `wReq1`. -/
def wFwd1 : List (String × String) :=
  [("authorization", "Bearer tok"), ("x-user-id", "u1"),
   ("x-user-role", "agent")]

/-! ## Association-list lemmas -/

theorem lookupA_setA_self {α : Type} (l : List (String × α)) (k : String) (v : α) :
    lookupA (setA l k v) k = some v := by
  induction l with
  | nil => simp [lookupA, setA, List.find?]
  | cons p t ih =>
    by_cases hp : p.1 = k
    · have hs : setA (p :: t) k v = (k, v) :: t := by simp [setA, hp]
      rw [hs]
      simp [lookupA, List.find?]
    · have hs : setA (p :: t) k v = p :: setA t k v := by simp [setA, hp]
      rw [hs]
      simpa [lookupA, List.find?, hp] using ih

theorem lookupA_setA_ne {α : Type} (l : List (String × α)) (k k' : String) (v : α)
    (h : k' ≠ k) : lookupA (setA l k v) k' = lookupA l k' := by
  induction l with
  | nil =>
    have hkk : ¬ (k = k') := fun hk => h hk.symm
    simp [lookupA, setA, List.find?, hkk]
  | cons p t ih =>
    by_cases hp : p.1 = k
    · have hs : setA (p :: t) k v = (k, v) :: t := by simp [setA, hp]
      have hkk : ¬ (k = k') := fun hk => h hk.symm
      have hpk : ¬ (p.1 = k') := fun hk => h (hp.symm.trans hk).symm
      rw [hs]
      simp [lookupA, List.find?, hkk, hpk]
    · have hs : setA (p :: t) k v = p :: setA t k v := by simp [setA, hp]
      rw [hs]
      by_cases hpk : p.1 = k'
      · simp [lookupA, List.find?, hpk]
      · simpa [lookupA, List.find?, hpk] using ih

theorem lookupA_some_mem {α : Type} (l : List (String × α)) (k : String) (v : α)
    (h : lookupA l k = some v) : (k, v) ∈ l := by
  unfold lookupA at h
  rcases Option.map_eq_some'.1 h with ⟨p, hfind, hv⟩
  have hmem := List.mem_of_find?_eq_some hfind
  have hkey : p.1 = k := by simpa using List.find?_some hfind
  have : p = (k, v) := by
    cases p
    simp_all
  exact this ▸ hmem

/-! ## Branch equations for `consumeSession` -/

theorem consumeSession_absent {st : Store} {rt : String}
    (h : lookupA st.sessions rt = none) (newId : String) (now : Nat) :
    consumeSession st rt newId now = (none, st) := by
  unfold consumeSession
  rw [h]

theorem consumeSession_expired {st : Store} {rt : String} {s : Session}
    (h : lookupA st.sessions rt = some s) (newId : String) {now : Nat}
    (he : s.expiresAt < now) :
    consumeSession st rt newId now =
      (none, { st with sessions := eraseA st.sessions rt }) := by
  unfold consumeSession
  rw [h]
  simp [he]

theorem consumeSession_used {st : Store} {rt : String} {s : Session}
    (h : lookupA st.sessions rt = some s) (newId : String) {now : Nat}
    (he : ¬ s.expiresAt < now) (hu : s.used = true) :
    consumeSession st rt newId now = (none, st) := by
  unfold consumeSession
  rw [h]
  simp [he, hu]

theorem consumeSession_success {st : Store} {rt : String} {s : Session}
    (h : lookupA st.sessions rt = some s) (newId : String) {now : Nat}
    (he : ¬ s.expiresAt < now) (hu : s.used = false) :
    consumeSession st rt newId now =
      (some (s.moltbookApiKey, s.userId, newId),
        createSession { st with sessions := markUsed st.sessions rt }
          s.userId s.moltbookApiKey newId now) := by
  unfold consumeSession
  rw [h]
  simp [he, hu]

/-! ## Dead-identifier invariant lemmas (claim C1 machinery) -/

theorem dead_lookup {l : List (String × Session)} {id : String}
    (h : Dead l id) {s : Session} (hl : lookupA l id = some s) :
    s.used = true :=
  h (id, s) (lookupA_some_mem l id s hl) rfl

theorem consume_none_of_dead {st : Store} {id : String} (h : Dead st.sessions id)
    (newId : String) (now : Nat) :
    (consumeSession st id newId now).1 = none := by
  cases hl : lookupA st.sessions id with
  | none => rw [consumeSession_absent hl]
  | some s =>
    have hu : s.used = true := dead_lookup h hl
    by_cases he : s.expiresAt < now
    · rw [consumeSession_expired hl newId he]
    · rw [consumeSession_used hl newId he hu]

theorem dead_setA {l : List (String × Session)} {id k : String}
    (h : Dead l id) (hk : k ≠ id) (v : Session) : Dead (setA l k v) id := by
  induction l with
  | nil =>
    intro p hp hpk
    simp only [setA, List.mem_singleton] at hp
    subst hp
    exact absurd hpk hk
  | cons q t ih =>
    by_cases hq : q.1 = k
    · have hs : setA (q :: t) k v = (k, v) :: t := by simp [setA, hq]
      rw [hs]
      intro p hp hpk
      rcases List.mem_cons.1 hp with rfl | hp'
      · exact absurd hpk hk
      · exact h p (List.mem_cons_of_mem _ hp') hpk
    · have hs : setA (q :: t) k v = q :: setA t k v := by simp [setA, hq]
      rw [hs]
      intro p hp hpk
      rcases List.mem_cons.1 hp with rfl | hp'
      · exact h p (List.mem_cons_self _ _) hpk
      · exact ih (fun p' hp'' => h p' (List.mem_cons_of_mem _ hp'')) p hp' hpk

theorem dead_markUsed {l : List (String × Session)} {id : String}
    (h : Dead l id) (k : String) : Dead (markUsed l k) id := by
  intro p hp hpk
  rcases List.mem_map.1 hp with ⟨q, hq, hfq⟩
  by_cases hqk : q.1 = k
  · simp only [markUsed, updateA] at hfq
    rw [if_pos hqk] at hfq
    rw [← hfq]
  · simp only [markUsed, updateA] at hfq
    rw [if_neg hqk] at hfq
    exact h p (hfq ▸ hq) hpk

theorem dead_markUsed_self (l : List (String × Session)) (id : String) :
    Dead (markUsed l id) id := by
  intro p hp hpk
  rcases List.mem_map.1 hp with ⟨q, hq, hfq⟩
  by_cases hqk : q.1 = id
  · simp only [markUsed, updateA] at hfq
    rw [if_pos hqk] at hfq
    rw [← hfq]
  · simp only [markUsed, updateA] at hfq
    rw [if_neg hqk] at hfq
    exact absurd (hfq ▸ hpk : q.1 = id) hqk

theorem dead_filter {l : List (String × Session)} {id : String}
    (h : Dead l id) (pred : String × Session → Bool) :
    Dead (l.filter pred) id := by
  intro p hp hpk
  exact h p (List.mem_of_mem_filter hp) hpk

theorem dead_createSession {st : Store} {id : String}
    (h : Dead st.sessions id) (userId key id' : String) (now : Nat)
    (hid : id' ≠ id) :
    Dead (createSession st userId key id' now).sessions id :=
  dead_setA h hid _

theorem dead_consume {st : Store} {id : String} (h : Dead st.sessions id)
    (rt newId : String) (now : Nat) (hn : newId ≠ id) :
    Dead (consumeSession st rt newId now).2.sessions id := by
  cases hl : lookupA st.sessions rt with
  | none => rw [consumeSession_absent hl]; exact h
  | some s =>
    by_cases he : s.expiresAt < now
    · rw [consumeSession_expired hl newId he]
      exact dead_filter h _
    · by_cases hu : s.used = true
      · rw [consumeSession_used hl newId he hu]
        exact h
      · rw [consumeSession_success hl newId he (Bool.not_eq_true _ ▸ hu)]
        exact dead_setA (dead_markUsed h rt) hn _

theorem dead_applyOp {st : Store} {id : String} (h : Dead st.sessions id)
    (op : Op) (ha : opAvoids id op) : Dead (applyOp st op).sessions id := by
  cases op with
  | create userId key id' now => exact dead_createSession h userId key id' now ha
  | consume rt newId now => exact dead_consume h rt newId now ha
  | prune now => exact dead_filter h _
  | invalidate userId =>
    show Dead (invalidateUser st userId).sessions id
    unfold invalidateUser
    cases lookupA st.userSessions userId with
    | none => exact h
    | some ids => exact dead_filter h _

theorem dead_applyOps {st : Store} {id : String} (h : Dead st.sessions id)
    (ops : List Op) (ha : ∀ op ∈ ops, opAvoids id op) :
    Dead (applyOps st ops).sessions id := by
  induction ops generalizing st with
  | nil => exact h
  | cons op rest ih =>
    exact ih (dead_applyOp h op (ha op (List.mem_cons_self _ _)))
      (fun o ho => ha o (List.mem_cons_of_mem _ ho))

theorem dead_after_success {st st' : Store} {id newId : String} {now : Nat}
    {r : String × String × String}
    (hc : consumeSession st id newId now = (some r, st')) (hn : newId ≠ id) :
    Dead st'.sessions id := by
  cases hl : lookupA st.sessions id with
  | none =>
    rw [consumeSession_absent hl newId now] at hc
    simp at hc
  | some s =>
    by_cases he : s.expiresAt < now
    · rw [consumeSession_expired hl newId he] at hc
      simp at hc
    · by_cases hu : s.used = true
      · rw [consumeSession_used hl newId he hu] at hc
        simp at hc
      · rw [consumeSession_success hl newId he (Bool.not_eq_true _ ▸ hu)] at hc
        have h2 : createSession { st with sessions := markUsed st.sessions id }
            s.userId s.moltbookApiKey newId now = st' := congrArg Prod.snd hc
        rw [← h2]
        exact dead_setA (dead_markUsed_self st.sessions id) hn _

/-! ## Claim theorems -/

/-- C1: once a `consumeSession` call on an identifier has succeeded, every
later `consumeSession` call on the same identifier returns `none`, across
any sequential interleaving of store operations that never re-create that
identifier (no `createSession` — stand-alone or inside a rotation — draws
it as its fresh UUID). -/
theorem consumeSession_single_use :
    ∀ (st : Store) (id newId : String) (now : Nat)
      (r : String × String × String) (st' : Store),
      consumeSession st id newId now = (some r, st') →
      newId ≠ id →
      ∀ ops : List Op, (∀ op ∈ ops, opAvoids id op) →
      ∀ (newId2 : String) (now2 : Nat),
        (consumeSession (applyOps st' ops) id newId2 now2).1 = none := by
  intro st id newId now r st' hc hn ops hops newId2 now2
  exact consume_none_of_dead
    (dead_applyOps (dead_after_success hc hn) ops hops) newId2 now2

/-- Witness for C1: a session is created and consumed once; after four
further store operations (a new login, a GC sweep, a rotation of the
successor, an invalidation of another user) the original identifier still
cannot be consumed. -/
theorem consumeSession_single_use_witness :
    (consumeSession (applyOps (consumeSession wStore "sid" "sid2" 1).2 wOps)
      "sid" "sid9" 99).1 = none :=
  consumeSession_single_use wStore "sid" "sid2" 1 ("key", "u", "sid2")
    (consumeSession wStore "sid" "sid2" 1).2 (by decide) (by decide)
    wOps (by decide) "sid9" 99

/-- C6: `consumeSession` returns `none` when the identifier is absent from
the store or when the entry's absolute expiry has passed — whatever the
entry's `used` flag. -/
theorem consumeSession_absent_or_expired_none :
    ∀ (st : Store) (id newId : String) (now : Nat),
      (lookupA st.sessions id = none ∨
        ∃ s, lookupA st.sessions id = some s ∧ s.expiresAt < now) →
      (consumeSession st id newId now).1 = none := by
  intro st id newId now h
  rcases h with h | ⟨s, hs, he⟩
  · rw [consumeSession_absent h newId now]
  · rw [consumeSession_expired hs newId he]

/-- Witness for C6: an expired-but-unused session cannot be consumed. -/
theorem consumeSession_absent_or_expired_none_witness :
    (consumeSession wStore "sid" "sid2" (SESSION_TTL_MS + 1)).1 = none :=
  consumeSession_absent_or_expired_none wStore "sid" "sid2" (SESSION_TTL_MS + 1)
    (Or.inr ⟨(⟨"key", "u", SESSION_TTL_MS, false⟩ : Session), by decide, by decide⟩)

/-- Counterexample to C8 as stated: consuming an *expired* session returns
`none` yet removes the entry from the session table, so a `none` result
does not always leave the store unchanged, and `consumeSession` — not only
the GC sweep or `invalidateUser` — can remove entries. -/
theorem consumeSession_none_mutates_counterexample :
    (consumeSession wStore "sid" "sid2" (SESSION_TTL_MS + 1)).1 = none ∧
    (consumeSession wStore "sid" "sid2" (SESSION_TTL_MS + 1)).2 ≠ wStore := by
  decide

/-- C8 (amended): the full effect discipline of `consumeSession`.  A call
returning `none` leaves the store unchanged unless the entry had expired, in
which case exactly that sessions-table entry is deleted; a successful call
flips the entry's `used` flag and creates the rotated successor entry, and
does nothing else. -/
theorem consumeSession_mutation_discipline :
    ∀ (st : Store) (id newId : String) (now : Nat)
      (res : Option (String × String × String)) (st' : Store),
      consumeSession st id newId now = (res, st') →
      (res = none →
        st' = st ∨
        ∃ s, lookupA st.sessions id = some s ∧ s.expiresAt < now ∧
          st' = { st with sessions := eraseA st.sessions id }) ∧
      (res = none → ∀ s, lookupA st.sessions id = some s →
        ¬ s.expiresAt < now → st' = st) ∧
      (∀ r, res = some r →
        ∃ s, lookupA st.sessions id = some s ∧ s.used = false ∧
          ¬ s.expiresAt < now ∧ r = (s.moltbookApiKey, s.userId, newId) ∧
          st' = createSession { st with sessions := markUsed st.sessions id }
            s.userId s.moltbookApiKey newId now) := by
  intro st id newId now res st' hc
  cases hl : lookupA st.sessions id with
  | none =>
    rw [consumeSession_absent hl newId now] at hc
    obtain ⟨h1, h2⟩ := Prod.mk.inj hc
    refine ⟨fun _ => Or.inl h2.symm, fun _ s hs _ => absurd hs (by simp),
      fun r hr => ?_⟩
    rw [← h1] at hr
    exact absurd hr (by simp)
  | some s =>
    by_cases he : s.expiresAt < now
    · rw [consumeSession_expired hl newId he] at hc
      obtain ⟨h1, h2⟩ := Prod.mk.inj hc
      refine ⟨fun _ => Or.inr ⟨s, rfl, he, h2.symm⟩, fun _ s' hs' hne => ?_,
        fun r hr => ?_⟩
      · obtain rfl : s = s' := Option.some.inj hs'
        exact absurd he hne
      · rw [← h1] at hr
        exact absurd hr (by simp)
    · by_cases hu : s.used = true
      · rw [consumeSession_used hl newId he hu] at hc
        obtain ⟨h1, h2⟩ := Prod.mk.inj hc
        refine ⟨fun _ => Or.inl h2.symm, fun _ _ _ _ => h2.symm, fun r hr => ?_⟩
        rw [← h1] at hr
        exact absurd hr (by simp)
      · have hu' : s.used = false := Bool.not_eq_true _ ▸ hu
        rw [consumeSession_success hl newId he hu'] at hc
        obtain ⟨h1, h2⟩ := Prod.mk.inj hc
        refine ⟨fun hres => ?_, fun hres _ _ _ => ?_, fun r hr => ?_⟩
        · rw [hres] at h1
          exact absurd h1 (by simp)
        · rw [hres] at h1
          exact absurd h1 (by simp)
        · rw [hr] at h1
          exact ⟨s, rfl, hu', he, (Option.some.inj h1).symm, h2.symm⟩

/-- Witness for C8 (amended): the discipline evaluated on a concrete
successful consumption. -/
theorem consumeSession_mutation_discipline_witness :
    ((some ("key", "u", "sid2") : Option (String × String × String)) = none →
      (consumeSession wStore "sid" "sid2" 1).2 = wStore ∨
      ∃ s, lookupA wStore.sessions "sid" = some s ∧ s.expiresAt < 1 ∧
        (consumeSession wStore "sid" "sid2" 1).2 =
          { wStore with sessions := eraseA wStore.sessions "sid" }) ∧
    ((some ("key", "u", "sid2") : Option (String × String × String)) = none →
      ∀ s, lookupA wStore.sessions "sid" = some s →
      ¬ s.expiresAt < 1 → (consumeSession wStore "sid" "sid2" 1).2 = wStore) ∧
    (∀ r, (some ("key", "u", "sid2") : Option (String × String × String)) = some r →
      ∃ s, lookupA wStore.sessions "sid" = some s ∧ s.used = false ∧
        ¬ s.expiresAt < 1 ∧ r = (s.moltbookApiKey, s.userId, "sid2") ∧
        (consumeSession wStore "sid" "sid2" 1).2 =
          createSession { wStore with sessions := markUsed wStore.sessions "sid" }
            s.userId s.moltbookApiKey "sid2" 1) :=
  consumeSession_mutation_discipline wStore "sid" "sid2" 1
    (some ("key", "u", "sid2")) (consumeSession wStore "sid" "sid2" 1).2
    (by decide)

/-- Counterexample to C2 as stated: `alice` is on the administrative-identity
list and her login-path token carries the elevated role, yet the token the
refresh (session-rotation) path mints for her carries role `agent` with
only the read/write permissions. -/
theorem refresh_demotes_admin_counterexample :
    parseAdminIds (some "alice") = ["alice"] ∧
    (loginMintedToken ⟨none, none, 0⟩ (some "alice") 0 "alice").role = "admin" ∧
    (loginMintedToken ⟨none, none, 0⟩ (some "alice") 0 "alice").permissions =
      ["read", "write", "delete", "admin"] ∧
    (refreshMintedToken ⟨none, none, 0⟩ 0 "alice").role = "agent" ∧
    (refreshMintedToken ⟨none, none, 0⟩ 0 "alice").permissions =
      ["read", "write"] := by
  decide

/-- C2 (amended): for a user on the administrative-identity list, the
login-path token carries the elevated role and its full permission set,
but the refresh-path token always carries role `agent` with permissions
`read`/`write` — the elevated role does not survive rotation. -/
theorem admin_token_by_path :
    ∀ (env : JwtEnv) (adminEnv : Option String) (now : Nat) (userId : String),
      (parseAdminIds adminEnv).contains userId = true →
      (loginMintedToken env adminEnv now userId).role = "admin" ∧
      (loginMintedToken env adminEnv now userId).permissions =
        ["read", "write", "delete", "admin"] ∧
      (refreshMintedToken env now userId).role = "agent" ∧
      (refreshMintedToken env now userId).permissions = ["read", "write"] := by
  intro env adminEnv now userId h
  have hmem : userId ∈ parseAdminIds adminEnv := by simpa using h
  simp [loginMintedToken, refreshMintedToken, signAccessToken, loginRole, hmem,
    ROLE_PERMISSIONS, Role.toStr]

/-- Witness for C2 (amended). -/
theorem admin_token_by_path_witness :
    (loginMintedToken ⟨none, none, 0⟩ (some "alice,bob") 0 "bob").role = "admin" ∧
    (loginMintedToken ⟨none, none, 0⟩ (some "alice,bob") 0 "bob").permissions =
      ["read", "write", "delete", "admin"] ∧
    (refreshMintedToken ⟨none, none, 0⟩ 0 "bob").role = "agent" ∧
    (refreshMintedToken ⟨none, none, 0⟩ 0 "bob").permissions =
      ["read", "write"] :=
  admin_token_by_path ⟨none, none, 0⟩ (some "alice,bob") 0 "bob" (by decide)

/-- C3: verifying a token issued with the same key pair and configuration,
at any clock inside the 15-minute validity window, succeeds and returns
exactly the issued subject, role, and permission set. -/
theorem verify_issue_roundtrip :
    ∀ (env : JwtEnv) (payload : AccessTokenPayload) (now now2 : Nat),
      now2 < now + ACCESS_TOKEN_TTL_S →
      verifyAccessToken env now2 (signAccessToken env now payload) =
        some payload := by
  intro env payload now now2 h
  simp [verifyAccessToken, signAccessToken, h]

/-- Witness for C3. -/
theorem verify_issue_roundtrip_witness :
    verifyAccessToken ⟨some "iss", some "aud", 7⟩ 100
      (signAccessToken ⟨some "iss", some "aud", 7⟩ 0
        ⟨"alice", "admin", ["read", "write", "delete", "admin"]⟩) =
      some ⟨"alice", "admin", ["read", "write", "delete", "admin"]⟩ :=
  verify_issue_roundtrip ⟨some "iss", some "aud", 7⟩
    ⟨"alice", "admin", ["read", "write", "delete", "admin"]⟩ 0 100 (by decide)

/-- C4: the resolver's answers on the three specified requests, and the
first-matching-rule discipline: whenever some rule of the ordered list
matches, the result is the requirement of the first matching rule. -/
theorem getRequiredPermission_examples :
    getRequiredPermission "DELETE" "/api/posts/123" = "delete" ∧
    getRequiredPermission "PATCH" "/api/agents" = "write" ∧
    findRule "GET" "/api/posts" = none ∧
    getRequiredPermission "GET" "/api/posts" = "read" ∧
    (∀ method pathname r, findRule method pathname = some r →
      getRequiredPermission method pathname = r.requires) := by
  refine ⟨by decide, by decide, by decide, by decide, ?_⟩
  intro method pathname r h
  simp [getRequiredPermission, h]

/-- Witness for C4: the first-match clause applied at a concrete request
matched by the first rule. -/
theorem getRequiredPermission_examples_witness :
    getRequiredPermission "DELETE" "/api/submolts" = "delete" :=
  getRequiredPermission_examples.2.2.2.2 "DELETE" "/api/submolts"
    ⟨"DELETE", .apiAny, "delete"⟩ (by decide)

/-- Counterexample to C5 as stated: `OPTIONS` is a safe method in the
RFC 7231 sense and no rule of the ordered list matches
`OPTIONS /api/submolts`, yet the resolver's default yields `write`,
not `read` — the default treats only `GET` and `HEAD` as safe. -/
theorem default_safe_method_counterexample :
    isSafeMethodRFC "OPTIONS" = true ∧
    noRuleMatches "OPTIONS" "/api/submolts" = true ∧
    getRequiredPermission "OPTIONS" "/api/submolts" = "write" := by
  decide

/-- C5 (amended): when no rule of the ordered list matches, the resolver
returns `read` exactly for `GET` and `HEAD` and `write` for every other
method. -/
theorem getRequiredPermission_default :
    ∀ method pathname, noRuleMatches method pathname = true →
      getRequiredPermission method pathname =
        if method = "GET" ∨ method = "HEAD" then "read" else "write" := by
  intro method pathname h
  have hfind : findRule method pathname = none := by
    unfold findRule
    rw [List.find?_eq_none]
    intro r hr
    have := List.all_eq_true.1 h r hr
    simpa using this
  simp [getRequiredPermission, hfind]

/-- Witness for C5 (amended). -/
theorem getRequiredPermission_default_witness :
    getRequiredPermission "PUT" "/api/posts/9" =
      if ("PUT" : String) = "GET" ∨ ("PUT" : String) = "HEAD" then "read"
      else "write" :=
  getRequiredPermission_default "PUT" "/api/posts/9" (by decide)

/-- C9: the resolver is total with range `{read, write, delete}`; it never
requires `admin`, and any requirement outside the agent role's permission
set is `delete`. -/
theorem getRequiredPermission_range :
    ∀ method pathname,
      (getRequiredPermission method pathname = "read" ∨
       getRequiredPermission method pathname = "write" ∨
       getRequiredPermission method pathname = "delete") ∧
      getRequiredPermission method pathname ≠ "admin" ∧
      (getRequiredPermission method pathname ∈ ROLE_PERMISSIONS .agent ∨
       getRequiredPermission method pathname = "delete") := by
  intro method pathname
  have hrange : getRequiredPermission method pathname = "read" ∨
      getRequiredPermission method pathname = "write" ∨
      getRequiredPermission method pathname = "delete" := by
    unfold getRequiredPermission
    cases hf : findRule method pathname with
    | none =>
      by_cases hm : method = "GET" ∨ method = "HEAD"
      · simp [hm]
      · simp [hm]
    | some r =>
      have hr : r ∈ ROUTE_PERMISSIONS_LIST := List.mem_of_find?_eq_some hf
      fin_cases hr <;> simp
  refine ⟨hrange, ?_, ?_⟩
  · rcases hrange with h | h | h <;> rw [h] <;> decide
  · rcases hrange with h | h | h <;> rw [h] <;> simp [ROLE_PERMISSIONS]

/-! ## Rate-limiter lemmas (claim C7 machinery) -/

theorem checkRateLimit_fresh {tbl : List (String × RateEntry)} {ip : String}
    (h : lookupA tbl ip = none) (now : Nat) :
    checkRateLimit tbl ip now = (true, setA tbl ip ⟨1, now⟩) := by
  unfold checkRateLimit
  rw [h]

theorem checkRateLimit_increment {tbl : List (String × RateEntry)} {ip : String}
    {c w now : Nat} (h : lookupA tbl ip = some ⟨c, w⟩)
    (hw : now ≤ w + RATE_WINDOW_MS) (hc : c < RATE_LIMIT) :
    checkRateLimit tbl ip now = (true, setA tbl ip ⟨c + 1, w⟩) := by
  unfold checkRateLimit
  rw [h]
  have h1 : ¬ now - w > RATE_WINDOW_MS := by omega
  have h2 : ¬ c ≥ RATE_LIMIT := by omega
  simp [h1, h2]

theorem checkRateLimit_reject {tbl : List (String × RateEntry)} {ip : String}
    {c w now : Nat} (h : lookupA tbl ip = some ⟨c, w⟩)
    (hw : now ≤ w + RATE_WINDOW_MS) (hc : c ≥ RATE_LIMIT) :
    checkRateLimit tbl ip now = (false, tbl) := by
  unfold checkRateLimit
  rw [h]
  have h1 : ¬ now - w > RATE_WINDOW_MS := by omega
  simp [h1, hc]

theorem checkRateLimit_reset {tbl : List (String × RateEntry)} {ip : String}
    {c w now : Nat} (h : lookupA tbl ip = some ⟨c, w⟩)
    (hw : w + RATE_WINDOW_MS < now) :
    checkRateLimit tbl ip now = (true, setA tbl ip ⟨1, now⟩) := by
  unfold checkRateLimit
  rw [h]
  have h1 : now - w > RATE_WINDOW_MS := by omega
  simp [h1]

theorem runAttempts_fill :
    ∀ (ts : List Nat) (tbl : List (String × RateEntry)) (ip : String)
      (c t0 : Nat),
      lookupA tbl ip = some ⟨c, t0⟩ →
      c + ts.length = RATE_LIMIT →
      (∀ t ∈ ts, t ≤ t0 + RATE_WINDOW_MS) →
      ∃ tbl2, runAttempts tbl ip ts = (List.replicate ts.length true, tbl2) ∧
        lookupA tbl2 ip = some ⟨RATE_LIMIT, t0⟩ := by
  intro ts
  induction ts with
  | nil =>
    intro tbl ip c t0 h hlen _
    have hc : c = RATE_LIMIT := by simpa using hlen
    subst hc
    exact ⟨tbl, rfl, h⟩
  | cons t ts ih =>
    intro tbl ip c t0 h hlen hts
    have hc : c < RATE_LIMIT := by
      simp only [List.length_cons] at hlen
      omega
    have hstep := checkRateLimit_increment h
      (hts t (List.mem_cons_self _ _)) hc
    have hlook : lookupA (setA tbl ip ⟨c + 1, t0⟩) ip = some ⟨c + 1, t0⟩ :=
      lookupA_setA_self tbl ip _
    have hlen' : c + 1 + ts.length = RATE_LIMIT := by
      simp only [List.length_cons] at hlen
      omega
    obtain ⟨tbl2, hrun, hfin⟩ := ih (setA tbl ip ⟨c + 1, t0⟩) ip (c + 1) t0
      hlook hlen' (fun t' ht' => hts t' (List.mem_cons_of_mem _ ht'))
    refine ⟨tbl2, ?_, hfin⟩
    show (let r := checkRateLimit tbl ip t
      let rest := runAttempts r.2 ip ts
      (r.1 :: rest.1, rest.2)) = (List.replicate (ts.length + 1) true, tbl2)
    rw [hstep]
    simp only [hrun, List.replicate_succ]

theorem runAttempts_append (tbl : List (String × RateEntry)) (ip : String)
    (l1 l2 : List Nat) :
    runAttempts tbl ip (l1 ++ l2) =
      ((runAttempts tbl ip l1).1 ++
        (runAttempts (runAttempts tbl ip l1).2 ip l2).1,
       (runAttempts (runAttempts tbl ip l1).2 ip l2).2) := by
  induction l1 generalizing tbl with
  | nil => simp [runAttempts]
  | cons t l1 ih => simp [runAttempts, ih]

/-- C7: from a source with no recorded attempts, the first 10 login attempts
inside the 15-minute window (one at `t0` opening the window, nine more no
later than `t0 + RATE_WINDOW_MS`) are admitted, the 11th attempt inside the
window is rejected, and any attempt strictly after the window is admitted
again. -/
theorem login_rate_limit_window :
    ∀ (tbl : List (String × RateEntry)) (ip : String) (t0 : Nat)
      (ts : List Nat) (t11 : Nat),
      lookupA tbl ip = none →
      ts.length = 9 →
      (∀ t ∈ ts, t ≤ t0 + RATE_WINDOW_MS) →
      t11 ≤ t0 + RATE_WINDOW_MS →
      ∃ tblF,
        runAttempts tbl ip (t0 :: (ts ++ [t11])) =
          (List.replicate 10 true ++ [false], tblF) ∧
        ∀ t2, t0 + RATE_WINDOW_MS < t2 → (checkRateLimit tblF ip t2).1 = true := by
  intro tbl ip t0 ts t11 hnone hlen hts ht11
  have hstep0 := checkRateLimit_fresh hnone t0
  have hlook1 : lookupA (setA tbl ip ⟨1, t0⟩) ip = some ⟨1, t0⟩ :=
    lookupA_setA_self tbl ip _
  obtain ⟨tbl2, hrun, hfin⟩ := runAttempts_fill ts (setA tbl ip ⟨1, t0⟩) ip 1 t0
    hlook1 (by rw [hlen]; decide) hts
  have hrej := checkRateLimit_reject hfin ht11 (le_refl RATE_LIMIT)
  have hlast : runAttempts tbl2 ip [t11] = ([false], tbl2) := by
    show (let r := checkRateLimit tbl2 ip t11
      let rest := runAttempts r.2 ip []
      (r.1 :: rest.1, rest.2)) = ([false], tbl2)
    rw [hrej]
    rfl
  refine ⟨tbl2, ?_, fun t2 ht2 => by rw [checkRateLimit_reset hfin ht2]⟩
  show (let r := checkRateLimit tbl ip t0
    let rest := runAttempts r.2 ip (ts ++ [t11])
    (r.1 :: rest.1, rest.2)) = (List.replicate 10 true ++ [false], tbl2)
  rw [hstep0]
  simp only [runAttempts_append, hrun, hlast]
  rw [hlen]
  rfl

/-- Witness for C7: eleven attempts at milliseconds 0..10 from a fresh
source, then a later attempt after the window. -/
theorem login_rate_limit_window_witness :
    ∃ tblF,
      runAttempts [] "1.2.3.4" (0 :: ([1, 2, 3, 4, 5, 6, 7, 8, 9] ++ [10])) =
        (List.replicate 10 true ++ [false], tblF) ∧
      ∀ t2, 0 + RATE_WINDOW_MS < t2 →
        (checkRateLimit tblF "1.2.3.4" t2).1 = true :=
  login_rate_limit_window [] "1.2.3.4" 0 [1, 2, 3, 4, 5, 6, 7, 8, 9] 10
    (by decide) (by decide) (by decide) (by decide)

/-! ## Authorization-gate lemmas (claim C10 machinery) -/

theorem middleware_forward_inv :
    ∀ (verify : String → Option AccessTokenPayload) (req : MwRequest)
      (hs : List (String × String)),
      middleware verify req = .forward hs →
      ∃ tok payload,
        strStartsWith req.pathname "/api/" = true ∧
        isPublicApiRoute req = false ∧
        bearerToken req = some tok ∧
        verify tok = some payload ∧
        payload.permissions.contains
          (getRequiredPermission req.method req.pathname) = true ∧
        hs = setA (setA req.headers "x-user-id" payload.sub)
          "x-user-role" payload.role := by
  intro verify req hs hf
  unfold middleware at hf
  split at hf
  · exact absurd hf (by simp)
  split at hf
  · exact absurd hf (by simp)
  split at hf
  · exact absurd hf (by simp)
  split at hf
  · exact absurd hf (by simp)
  rename_i hnapi hpub xo tok htok yo payload hpay
  by_cases hperm : payload.permissions.contains
      (getRequiredPermission req.method req.pathname) = true
  · simp only [hperm, if_true] at hf
    refine ⟨tok, payload, by simpa using hnapi, by simpa using hpub, htok,
      hpay, hperm, ?_⟩
    exact (MwOutcome.forward.inj hf).symm
  · simp only [hperm, if_false] at hf
    exact absurd hf (by simp)

theorem middleware_forward_intro :
    ∀ (verify : String → Option AccessTokenPayload) (req : MwRequest)
      (tok : String) (payload : AccessTokenPayload),
      strStartsWith req.pathname "/api/" = true →
      isPublicApiRoute req = false →
      bearerToken req = some tok →
      verify tok = some payload →
      payload.permissions.contains
        (getRequiredPermission req.method req.pathname) = true →
      middleware verify req = .forward
        (setA (setA req.headers "x-user-id" payload.sub)
          "x-user-role" payload.role) := by
  intro verify req tok payload h1 h2 h3 h4 h5
  have h5m : getRequiredPermission req.method req.pathname ∈
      payload.permissions := by simpa using h5
  unfold middleware
  simp [h1, h2, h3, h4, h5m]

/-- C10: on any request the gate forwards, the `x-user-id` and `x-user-role`
headers it hands downstream are exactly the verified token payload's subject
and role; and a second request agreeing on method, pathname, and the
`authorization` header — however its client-supplied `x-user-id` /
`x-user-role` headers differ — is forwarded with identical identity
headers. -/
theorem gate_identity_headers :
    ∀ (verify : String → Option AccessTokenPayload) (req1 req2 : MwRequest)
      (h1 : List (String × String)),
      req2.method = req1.method →
      req2.pathname = req1.pathname →
      lookupA req2.headers "authorization" =
        lookupA req1.headers "authorization" →
      middleware verify req1 = .forward h1 →
      ∃ tok payload h2,
        bearerToken req1 = some tok ∧
        verify tok = some payload ∧
        middleware verify req2 = .forward h2 ∧
        lookupA h1 "x-user-id" = some payload.sub ∧
        lookupA h1 "x-user-role" = some payload.role ∧
        lookupA h2 "x-user-id" = some payload.sub ∧
        lookupA h2 "x-user-role" = some payload.role := by
  intro verify req1 req2 h1 hm hp hauth hf
  obtain ⟨tok, payload, ha, hb, hc, hd, he, hh⟩ :=
    middleware_forward_inv verify req1 h1 hf
  have ha2 : strStartsWith req2.pathname "/api/" = true := by rw [hp]; exact ha
  have hb2 : isPublicApiRoute req2 = false := by
    unfold isPublicApiRoute
    rw [hp, hm]
    exact hb
  have hc2 : bearerToken req2 = some tok := by
    unfold bearerToken
    rw [hauth]
    exact hc
  have he2 : payload.permissions.contains
      (getRequiredPermission req2.method req2.pathname) = true := by
    rw [hm, hp]
    exact he
  have hfwd2 := middleware_forward_intro verify req2 tok payload ha2 hb2 hc2
    hd he2
  have hne : ("x-user-id" : String) ≠ "x-user-role" := by decide
  refine ⟨tok, payload,
    setA (setA req2.headers "x-user-id" payload.sub) "x-user-role" payload.role,
    hc, hd, hfwd2, ?_, ?_, ?_, ?_⟩
  · rw [hh, lookupA_setA_ne _ _ _ _ hne, lookupA_setA_self]
  · rw [hh, lookupA_setA_self]
  · rw [lookupA_setA_ne _ _ _ _ hne, lookupA_setA_self]
  · rw [lookupA_setA_self]

/-- Witness for C10: two requests that differ only in the client-supplied
`x-user-id` / `x-user-role` headers are forwarded with the same verified
identity headers. -/
theorem gate_identity_headers_witness :
    ∃ tok payload h2,
      bearerToken wReq1 = some tok ∧
      wVerify tok = some payload ∧
      middleware wVerify wReq2 = .forward h2 ∧
      lookupA wFwd1 "x-user-id" = some payload.sub ∧
      lookupA wFwd1 "x-user-role" = some payload.role ∧
      lookupA h2 "x-user-id" = some payload.sub ∧
      lookupA h2 "x-user-role" = some payload.role :=
  gate_identity_headers wVerify wReq1 wReq2 wFwd1 (by decide) (by decide)
    (by decide) (by decide)

end Moltbook
